import Mathlib

/-!
# go-safeweb: `safehttp/defaults`

A shallow embedding of `defaults.ServeMuxConfig` (file
`safehttp/defaults/defaults.go`) and proofs about the configuration it
assembles: which inputs it rejects, which error it reports, and the exact
order in which the security interceptors are installed.

The plugin constructors that the function calls (`hsts.Default`,
`coop.Default`, `csp.Default`, `hostcheck.New`,
`fetchmetadata.ResourceIsolationPolicy`, `framing.Interceptors`) live in other
packages; they are taken as parameters, bundled in `Plugins`, and every theorem
holds for every choice of them.
-/

/-! ## Go values -/

namespace Go

/-- A Go slice value: the nil slice, or a (possibly empty) sequence of elements. -/
inductive Slice (α : Type) where
  | nil : Slice α
  | mk (elems : List α) : Slice α
  deriving DecidableEq, Repr

/-- Go builtin: the length of a slice; the nil slice has length 0. -/
def len {α : Type} : Slice α → Nat
  | .nil => 0
  | .mk elems => elems.length

/-- The elements of a slice, in order (none for the nil slice). -/
def Slice.elems {α : Type} : Slice α → List α
  | .nil => []
  | .mk elems => elems

/-- A non-nil Go error value as built by the errors package: it carries its message. -/
structure Error where
  msg : String
  deriving DecidableEq, Repr

end Go

namespace errors

/-- Go standard library: an error whose message is the given text. -/
def New (text : String) : Go.Error := ⟨text⟩

end errors

/-! ## The types the function names -/

namespace staticheaders

/-- The struct type behind the literal written in the source; the literal sets no field. -/
structure Interceptor where
  deriving DecidableEq, Repr

end staticheaders

namespace xsrfhtml

/-- The struct type behind the literal written in the source. The literal sets the one
field SecretAppKey; any other field the type may have keeps its zero value. -/
structure Interceptor where
  SecretAppKey : String
  deriving DecidableEq, Repr

end xsrfhtml

/-- What `defaults.ServeMuxConfig` takes from the plugin packages, over the type `I` of
`safehttp.Interceptor` interface values. Each field is one expression of the source. -/
structure Plugins (I : Type) where
  /-- The conversion of a staticheaders.Interceptor value to the interface. -/
  staticheadersInterceptor : staticheaders.Interceptor → I
  /-- The call hsts.Default(). -/
  hstsDefault : I
  /-- The call coop.Default(reportGroup). -/
  coopDefault : String → I
  /-- The call csp.Default(reportURI); the source ranges over what it returns. -/
  cspDefault : String → List I
  /-- The call hostcheck.New(hosts...): the variadic parameter receives the slice itself. -/
  hostcheckNew : Go.Slice String → I
  /-- The call fetchmetadata.ResourceIsolationPolicy(). -/
  fetchmetadataResourceIsolationPolicy : I
  /-- The conversion of a pointer to an xsrfhtml.Interceptor to the interface. -/
  xsrfhtmlInterceptor : xsrfhtml.Interceptor → I
  /-- The call framing.Interceptors(reportURI); the source ranges over what it returns. -/
  framingInterceptors : String → List I

namespace safehttp

/-- Modelled from the spec: the type safehttp.ServeMuxConfig and its functions
NewServeMuxConfig and Intercept are declared outside defaults.go. The spec describes the
pipeline as an ordered sequence of interceptors, fixed at construction, built from a
slice of interceptor values appended in sequence (sections 3 and 9). The dispatcher
handed to NewServeMuxConfig (nil in defaults.go) has no part in the sequence and is
left out. -/
structure ServeMuxConfig (I : Type) where
  interceptors : List I
  deriving DecidableEq, Repr

/-- Modelled from the spec: safehttp.NewServeMuxConfig is declared outside defaults.go;
a new config has no interceptor registered yet (spec section 9, the registration list
starts empty and is appended to). -/
def NewServeMuxConfig {I : Type} : ServeMuxConfig I := ⟨[]⟩

/-- Modelled from the spec: the method Intercept is declared outside defaults.go; it
appends the interceptor at the end of the registration list (spec section 9). -/
def ServeMuxConfig.Intercept {I : Type} (c : ServeMuxConfig I) (i : I) : ServeMuxConfig I :=
  ⟨c.interceptors ++ [i]⟩

end safehttp

/-! ## The function -/

namespace defaults

open Go in
/-- The function `ServeMuxConfig` of defaults.go, statement by statement. The pointer `c`
is passed as state from one statement to the next; each range loop is a left fold over
the returned slice. The Go result pair is a pair of options: nil is none. -/
def ServeMuxConfig {I : Type} (P : Plugins I) (hosts : Go.Slice String) (xsrfKey : String) :
    Option (safehttp.ServeMuxConfig I) × Option Go.Error :=
  if len hosts = 0 then
    (none, some (errors.New "hosts slice cannot be empty"))
  else if xsrfKey = "" then
    (none, some (errors.New "xsrfKey cannot be empty"))
  else
    let c : safehttp.ServeMuxConfig I := safehttp.NewServeMuxConfig
    -- Non-blocking:
    let c := c.Intercept (P.staticheadersInterceptor {})
    let c := c.Intercept P.hstsDefault
    let c := c.Intercept (P.coopDefault "")
    let c := (P.cspDefault "").foldl (fun c i => c.Intercept i) c
    -- Blocking:
    let c := c.Intercept (P.hostcheckNew hosts)
    let c := c.Intercept P.fetchmetadataResourceIsolationPolicy
    let c := c.Intercept (P.xsrfhtmlInterceptor { SecretAppKey := xsrfKey })
    let c := (P.framingInterceptors "").foldl (fun c i => c.Intercept i) c
    (some c, none)

end defaults

/-! ## A concrete plugin environment

Interceptor values that record the expression that built them. Two values are equal
exactly when they were built by the same constructor from the same arguments, as for Go
interface values of distinct dynamic types. -/

/-- An interceptor value that records how it was built. -/
inductive Built where
  | staticheaders (v : staticheaders.Interceptor)
  | hsts
  | coop (reportGroup : String)
  | csp (reportURI : String) (k : Nat)
  | hostcheck (hosts : Go.Slice String)
  | fetchmetadata
  | xsrfhtml (v : xsrfhtml.Interceptor)
  | framing (reportURI : String) (k : Nat)
  deriving DecidableEq, Repr

/-- The plugin environment over `Built`: csp.Default returns `nCsp` interceptors and
framing.Interceptors returns `nFraming`, each recording the report URI it was given. -/
def recording (nCsp nFraming : Nat) : Plugins Built where
  staticheadersInterceptor := Built.staticheaders
  hstsDefault := Built.hsts
  coopDefault := Built.coop
  cspDefault := fun reportURI => (List.range nCsp).map (Built.csp reportURI)
  hostcheckNew := Built.hostcheck
  fetchmetadataResourceIsolationPolicy := Built.fetchmetadata
  xsrfhtmlInterceptor := Built.xsrfhtml
  framingInterceptors := fun reportURI => (List.range nFraming).map (Built.framing reportURI)

/-! ## The chain executor -/

namespace safehttp

/-- Modelled from the spec: what the before phase of one interceptor answers (spec
section 3): continue, with the pending response it may have changed, or halt with a
rejection. -/
inductive BeforeResult (Ctx Resp : Type) where
  | continue (ctx : Ctx) : BeforeResult Ctx Resp
  | halt (rejection : Resp) : BeforeResult Ctx Resp
  deriving DecidableEq, Repr

/-- Modelled from the spec: the behaviour of the interceptors and of the downstream
handler on a request context, which the chain executor is run against (spec sections 3
and 4.1). They are outside defaults.go and are left arbitrary. -/
structure Behaviour (I Ctx Resp : Type) where
  before : I → Ctx → BeforeResult Ctx Resp
  handler : Ctx → Ctx
  commit : I → Ctx → Ctx
  respond : Ctx → Resp

/-- Modelled from the spec: one step of a run of the chain executor (a before phase, the
downstream handler, a commit phase; spec section 4.1), recorded in the order the steps
happen so that what ran can be read off. -/
inductive Step (I : Type) where
  | before (i : I) : Step I
  | handler : Step I
  | commit (i : I) : Step I
  deriving DecidableEq, Repr

/-- Modelled from the spec: the before pass of the chain executor, which is outside
defaults.go. Spec section 4.1: iterate the interceptors in registration order and call
before on each; when one signals halt, stop immediately, no further interceptor runs. The
steps taken are returned with the result. -/
def runBefore {I Ctx Resp : Type} (B : Behaviour I Ctx Resp) :
    List I → Ctx → List (Step I) × BeforeResult Ctx Resp
  | [], ctx => ([], .continue ctx)
  | i :: rest, ctx =>
    match B.before i ctx with
    | .halt rejection => ([.before i], .halt rejection)
    | .continue ctx1 =>
      let (steps, res) := runBefore B rest ctx1
      (.before i :: steps, res)

/-- Modelled from the spec: the commit pass of the chain executor: each interceptor's
commit, in the same forward order (spec section 4.1). -/
def runCommit {I Ctx Resp : Type} (B : Behaviour I Ctx Resp) :
    List I → Ctx → List (Step I) × Ctx
  | [], ctx => ([], ctx)
  | i :: rest, ctx =>
    let (steps, ctx1) := runCommit B rest (B.commit i ctx)
    (.commit i :: steps, ctx1)

/-- Modelled from the spec: the chain executor, which is outside defaults.go. Spec
section 4.1: run the before pass; on a halt the rejection is the response and the
downstream handler is never invoked; otherwise invoke the handler, then run the commit
pass. The steps taken are returned with the response. -/
def run {I Ctx Resp : Type} (B : Behaviour I Ctx Resp) (c : ServeMuxConfig I) (ctx : Ctx) :
    List (Step I) × Resp :=
  match runBefore B c.interceptors ctx with
  | (steps, .halt rejection) => (steps, rejection)
  | (steps, .continue ctx1) =>
    let (steps2, ctx2) := runCommit B c.interceptors (B.handler ctx1)
    (steps ++ [.handler] ++ steps2, B.respond ctx2)

end safehttp

/-! ## The two groups of the source

The source installs the interceptors in two groups, under the comments
"Non-blocking" and "Blocking". -/

/-- The interceptors the claims call non-blocking, header-only: static headers, HSTS,
COOP and each CSP interceptor, as the source builds them. -/
def nonBlocking {I : Type} (P : Plugins I) : List I :=
  [P.staticheadersInterceptor {}, P.hstsDefault, P.coopDefault ""] ++ P.cspDefault ""

/-- The interceptors the claims call blocking: host check, fetch-metadata resource
isolation, XSRF and each framing interceptor, as the source builds them. -/
def blocking {I : Type} (P : Plugins I) (hosts : Go.Slice String) (xsrfKey : String) : List I :=
  [P.hostcheckNew hosts, P.fetchmetadataResourceIsolationPolicy,
    P.xsrfhtmlInterceptor { SecretAppKey := xsrfKey }] ++ P.framingInterceptors ""

/-- The six built-ins the source installs one at a time, outside the two loops. -/
def builtins {I : Type} (P : Plugins I) (hosts : Go.Slice String) (xsrfKey : String) : List I :=
  [P.staticheadersInterceptor {}, P.hstsDefault, P.coopDefault "",
    P.hostcheckNew hosts, P.fetchmetadataResourceIsolationPolicy,
    P.xsrfhtmlInterceptor { SecretAppKey := xsrfKey }]

/-! ## A sample behaviour

Used to run the executor on concrete requests; the theorems hold for every behaviour. -/

/-- A request context: the host the request names, whether it carries an XSRF token, and
the names of the response headers set so far. -/
structure SampleCtx where
  host : String
  hasToken : Bool
  headers : List String
  deriving DecidableEq, Repr

/-- A response: its status code and the names of its headers. -/
structure SampleResp where
  status : Nat
  headers : List String
  deriving DecidableEq, Repr

/-- Adds one header name to the pending response. -/
def SampleCtx.setHeader (ctx : SampleCtx) (name : String) : SampleCtx :=
  { ctx with headers := ctx.headers ++ [name] }

/-- A sample behaviour over `Built`: the header interceptors set their header and
continue, the host check halts on a host outside its list, the XSRF interceptor halts on
a request without token. -/
def sampleBehaviour : safehttp.Behaviour Built SampleCtx SampleResp where
  before := fun i ctx =>
    match i with
    | .staticheaders _ => .continue (ctx.setHeader "X-Content-Type-Options")
    | .hsts => .continue (ctx.setHeader "Strict-Transport-Security")
    | .coop _ => .continue (ctx.setHeader "Cross-Origin-Opener-Policy")
    | .csp _ _ => .continue (ctx.setHeader "Content-Security-Policy")
    | .hostcheck hosts =>
      if ctx.host ∈ hosts.elems then .continue ctx else .halt ⟨403, ctx.headers⟩
    | .fetchmetadata => .continue ctx
    | .xsrfhtml _ => if ctx.hasToken then .continue ctx else .halt ⟨403, ctx.headers⟩
    | .framing _ _ => .continue (ctx.setHeader "X-Frame-Options")
  handler := fun ctx => ctx
  commit := fun _ ctx => ctx
  respond := fun ctx => ⟨200, ctx.headers⟩

/-! ## Lemmas -/

theorem Intercept_interceptors {I : Type} (c : safehttp.ServeMuxConfig I) (i : I) :
    (c.Intercept i).interceptors = c.interceptors ++ [i] := rfl

theorem foldl_Intercept_interceptors {I : Type} (xs : List I) (c : safehttp.ServeMuxConfig I) :
    (xs.foldl (fun c i => c.Intercept i) c).interceptors = c.interceptors ++ xs := by
  induction xs generalizing c with
  | nil => simp
  | cons x xs ih =>
    rw [List.foldl_cons, ih, Intercept_interceptors]
    simp

theorem ServeMuxConfig_of_valid {I : Type} (P : Plugins I) (hosts : Go.Slice String)
    (xsrfKey : String) (hh : Go.len hosts ≠ 0) (hk : xsrfKey ≠ "") :
    defaults.ServeMuxConfig P hosts xsrfKey =
      (some ⟨nonBlocking P ++ blocking P hosts xsrfKey⟩, none) := by
  have e : ∀ c d : safehttp.ServeMuxConfig I, c.interceptors = d.interceptors → c = d := by
    intro c d h; cases c; cases d; simpa using h
  simp only [defaults.ServeMuxConfig, if_neg hh, if_neg hk]
  refine Prod.ext ?_ rfl
  simp only [Option.some.injEq]
  apply e
  simp only [foldl_Intercept_interceptors, Intercept_interceptors]
  simp [safehttp.NewServeMuxConfig, nonBlocking, blocking]

theorem ServeMuxConfig_of_no_hosts {I : Type} (P : Plugins I) (hosts : Go.Slice String)
    (xsrfKey : String) (hh : Go.len hosts = 0) :
    defaults.ServeMuxConfig P hosts xsrfKey =
      (none, some (errors.New "hosts slice cannot be empty")) := by
  simp [defaults.ServeMuxConfig, hh]

theorem ServeMuxConfig_of_no_key {I : Type} (P : Plugins I) (hosts : Go.Slice String)
    (hh : Go.len hosts ≠ 0) :
    defaults.ServeMuxConfig P hosts "" =
      (none, some (errors.New "xsrfKey cannot be empty")) := by
  simp [defaults.ServeMuxConfig, hh]

theorem ServeMuxConfig_some_inv {I : Type} (P : Plugins I) (hosts : Go.Slice String)
    (xsrfKey : String) (c : safehttp.ServeMuxConfig I)
    (h : (defaults.ServeMuxConfig P hosts xsrfKey).1 = some c) :
    Go.len hosts ≠ 0 ∧ xsrfKey ≠ "" ∧
      c.interceptors = nonBlocking P ++ blocking P hosts xsrfKey := by
  by_cases hh : Go.len hosts = 0
  · rw [ServeMuxConfig_of_no_hosts P hosts xsrfKey hh] at h
    simp at h
  · by_cases hk : xsrfKey = ""
    · subst hk
      rw [ServeMuxConfig_of_no_key P hosts hh] at h
      simp at h
    · rw [ServeMuxConfig_of_valid P hosts xsrfKey hh hk] at h
      simp only [Option.some.injEq] at h
      subst h
      exact ⟨hh, hk, rfl⟩

theorem nonBlocking_length {I : Type} (P : Plugins I) :
    (nonBlocking P).length = 3 + (P.cspDefault "").length := by
  simp [nonBlocking]; omega

theorem blocking_length {I : Type} (P : Plugins I) (hosts : Go.Slice String) (xsrfKey : String) :
    (blocking P hosts xsrfKey).length = 3 + (P.framingInterceptors "").length := by
  simp [blocking]; omega

theorem runBefore_append {I Ctx Resp : Type} (B : safehttp.Behaviour I Ctx Resp)
    (xs ys : List I) (ctx ctx1 : Ctx) (steps : List (safehttp.Step I))
    (h : safehttp.runBefore B xs ctx = (steps, .continue ctx1)) :
    safehttp.runBefore B (xs ++ ys) ctx =
      (steps ++ (safehttp.runBefore B ys ctx1).1, (safehttp.runBefore B ys ctx1).2) := by
  induction xs generalizing ctx steps with
  | nil =>
    simp only [safehttp.runBefore, Prod.mk.injEq, safehttp.BeforeResult.continue.injEq] at h
    obtain ⟨h1, h2⟩ := h
    subst h1; subst h2
    simp
  | cons x xs ih =>
    simp only [safehttp.runBefore, List.cons_append] at h ⊢
    cases hb : B.before x ctx with
    | halt r => rw [hb] at h; simp at h
    | «continue» ctx2 =>
      rw [hb] at h
      simp only [Prod.mk.injEq] at h
      obtain ⟨h1, h2⟩ := h
      have h3 : safehttp.runBefore B xs ctx2 =
          ((safehttp.runBefore B xs ctx2).1, .continue ctx1) := by
        rw [← h2]
      have h4 := ih ctx2 _ h3
      simp only [List.append_eq, h4]
      simp [← h1]

theorem runBefore_continue_steps {I Ctx Resp : Type} (B : safehttp.Behaviour I Ctx Resp)
    (xs : List I) (ctx ctx1 : Ctx) (steps : List (safehttp.Step I))
    (h : safehttp.runBefore B xs ctx = (steps, .continue ctx1)) :
    steps = xs.map safehttp.Step.before := by
  induction xs generalizing ctx steps with
  | nil =>
    simp only [safehttp.runBefore, Prod.mk.injEq] at h
    simp [← h.1]
  | cons x xs ih =>
    simp only [safehttp.runBefore] at h
    cases hb : B.before x ctx with
    | halt r => rw [hb] at h; simp at h
    | «continue» ctx2 =>
      rw [hb] at h
      simp only [Prod.mk.injEq] at h
      obtain ⟨h1, h2⟩ := h
      have h3 : safehttp.runBefore B xs ctx2 =
          ((safehttp.runBefore B xs ctx2).1, .continue ctx1) := by
        rw [← h2]
      rw [← h1, List.map_cons, ← ih ctx2 _ h3]

/-! ## Rejected inputs -/

/-- C1: for every xsrfKey, empty or not, `ServeMuxConfig` called with a hosts slice of
length 0 (the nil slice included) returns a nil config together with a non-nil error. -/
theorem ServeMuxConfig_empty_hosts_fails {I : Type} (P : Plugins I) (hosts : Go.Slice String)
    (xsrfKey : String) (h : Go.len hosts = 0) :
    (defaults.ServeMuxConfig P hosts xsrfKey).1 = none ∧
      (defaults.ServeMuxConfig P hosts xsrfKey).2 ≠ none := by
  rw [ServeMuxConfig_of_no_hosts P hosts xsrfKey h]
  simp

/-- The nil slice with a usable key is rejected. -/
theorem ServeMuxConfig_empty_hosts_fails_witness :
    Go.len (Go.Slice.nil : Go.Slice String) = 0 ∧
      (defaults.ServeMuxConfig (recording 2 2) Go.Slice.nil "k").1 = none ∧
      (defaults.ServeMuxConfig (recording 2 2) Go.Slice.nil "k").2 ≠ none :=
  ⟨rfl, ServeMuxConfig_empty_hosts_fails (recording 2 2) Go.Slice.nil "k" rfl⟩

/-- C2: for every non-empty hosts slice, `ServeMuxConfig` called with the empty xsrfKey
returns a nil config together with a non-nil error. -/
theorem ServeMuxConfig_empty_key_fails {I : Type} (P : Plugins I) (hosts : Go.Slice String)
    (h : Go.len hosts ≠ 0) :
    (defaults.ServeMuxConfig P hosts "").1 = none ∧
      (defaults.ServeMuxConfig P hosts "").2 ≠ none := by
  rw [ServeMuxConfig_of_no_key P hosts h]
  simp

/-- One host and the empty key are rejected. -/
theorem ServeMuxConfig_empty_key_fails_witness :
    Go.len (Go.Slice.mk ["example.com"]) ≠ 0 ∧
      (defaults.ServeMuxConfig (recording 2 2) (Go.Slice.mk ["example.com"]) "").1 = none ∧
      (defaults.ServeMuxConfig (recording 2 2) (Go.Slice.mk ["example.com"]) "").2 ≠ none :=
  ⟨by decide,
    ServeMuxConfig_empty_key_fails (recording 2 2) (Go.Slice.mk ["example.com"]) (by decide)⟩

/-- C3: `ServeMuxConfig` returns an error if and only if hosts is empty or xsrfKey is
empty; for every hosts slice of length at least 1, whatever strings it holds, and every
non-empty xsrfKey it returns a non-nil config and a nil error. -/
theorem ServeMuxConfig_fails_iff {I : Type} (P : Plugins I) (hosts : Go.Slice String)
    (xsrfKey : String) :
    ((defaults.ServeMuxConfig P hosts xsrfKey).2 ≠ none ↔ (Go.len hosts = 0 ∨ xsrfKey = "")) ∧
    (1 ≤ Go.len hosts → xsrfKey ≠ "" →
      (defaults.ServeMuxConfig P hosts xsrfKey).1 ≠ none ∧
        (defaults.ServeMuxConfig P hosts xsrfKey).2 = none) := by
  by_cases hh : Go.len hosts = 0
  · rw [ServeMuxConfig_of_no_hosts P hosts xsrfKey hh]
    simp [hh]
  · by_cases hk : xsrfKey = ""
    · subst hk
      rw [ServeMuxConfig_of_no_key P hosts hh]
      simp
    · rw [ServeMuxConfig_of_valid P hosts xsrfKey hh hk]
      simp [hh, hk]

/-- A host that is the empty string still counts: with a non-empty key the call succeeds. -/
theorem ServeMuxConfig_fails_iff_witness :
    1 ≤ Go.len (Go.Slice.mk [""]) ∧ "k" ≠ "" ∧
      (defaults.ServeMuxConfig (recording 2 2) (Go.Slice.mk [""]) "k").1 ≠ none ∧
      (defaults.ServeMuxConfig (recording 2 2) (Go.Slice.mk [""]) "k").2 = none :=
  ⟨by decide, by decide,
    (ServeMuxConfig_fails_iff (recording 2 2) (Go.Slice.mk [""]) "k").2 (by decide) (by decide)⟩

/-- C10: the hosts check comes first. When hosts is empty the error is the hosts error,
with message "hosts slice cannot be empty", also when xsrfKey is empty too; the message
"xsrfKey cannot be empty" is returned exactly when hosts is non-empty and xsrfKey is
empty. -/
theorem ServeMuxConfig_error_message {I : Type} (P : Plugins I) (hosts : Go.Slice String)
    (xsrfKey : String) :
    (Go.len hosts = 0 →
      (defaults.ServeMuxConfig P hosts "").2 = some ⟨"hosts slice cannot be empty"⟩ ∧
      (defaults.ServeMuxConfig P hosts xsrfKey).2 = some ⟨"hosts slice cannot be empty"⟩) ∧
    ((defaults.ServeMuxConfig P hosts xsrfKey).2 = some ⟨"xsrfKey cannot be empty"⟩ ↔
      (Go.len hosts ≠ 0 ∧ xsrfKey = "")) := by
  by_cases hh : Go.len hosts = 0
  · rw [ServeMuxConfig_of_no_hosts P hosts xsrfKey hh, ServeMuxConfig_of_no_hosts P hosts "" hh]
    simp only [errors.New, hh, ne_eq, not_true_eq_false, false_and, iff_false, true_and,
      forall_const, Option.some.injEq, Go.Error.mk.injEq]
    decide
  · by_cases hk : xsrfKey = ""
    · subst hk
      rw [ServeMuxConfig_of_no_key P hosts hh]
      simp [hh, errors.New]
    · rw [ServeMuxConfig_of_valid P hosts xsrfKey hh hk]
      simp [hh, hk]

/-- The nil slice with the empty key gets the hosts error, not the key error. -/
theorem ServeMuxConfig_error_message_witness :
    Go.len (Go.Slice.nil : Go.Slice String) = 0 ∧
      (defaults.ServeMuxConfig (recording 1 1) Go.Slice.nil "").2 =
        some ⟨"hosts slice cannot be empty"⟩ ∧
      (defaults.ServeMuxConfig (recording 1 1) Go.Slice.nil "").2 =
        some ⟨"hosts slice cannot be empty"⟩ :=
  ⟨rfl, (ServeMuxConfig_error_message (recording 1 1) Go.Slice.nil "").1 rfl⟩

theorem getElem?_frame {α : Type} (a d : List α) (x y z x2 z2 : α) (k : Nat)
    (h1 : k ≠ a.length) (h2 : k ≠ a.length + 2) :
    (a ++ ([x, y, z] ++ d))[k]? = (a ++ ([x2, y, z2] ++ d))[k]? := by
  by_cases hk : k < a.length
  · rw [List.getElem?_append_left hk, List.getElem?_append_left hk]
  · have hle : a.length ≤ k := by omega
    rw [List.getElem?_append_right hle, List.getElem?_append_right hle]
    obtain ⟨m, hm⟩ : ∃ m, k - a.length = m := ⟨_, rfl⟩
    rw [hm]
    match m, hm with
    | 0, hm => omega
    | 1, _ => rfl
    | 2, hm => omega
    | m + 3, _ => rfl

/-! ## The installed sequence -/

/-- C4: in the interceptor sequence of every config that `ServeMuxConfig` returns, the
non-blocking interceptors (static headers, HSTS, COOP, each CSP interceptor) fill the
first positions and the blocking ones (host check, fetch-metadata, XSRF, each framing
interceptor) fill all the positions after them: the i-th non-blocking interceptor is at
position i, the j-th blocking one at a position behind every non-blocking one. -/
theorem nonBlocking_before_blocking {I : Type} (P : Plugins I) (hosts : Go.Slice String)
    (xsrfKey : String) (c : safehttp.ServeMuxConfig I)
    (h : (defaults.ServeMuxConfig P hosts xsrfKey).1 = some c) :
    c.interceptors.length = (nonBlocking P).length + (blocking P hosts xsrfKey).length ∧
    ∀ (i j : Nat) (hi : i < (nonBlocking P).length)
      (hj : j < (blocking P hosts xsrfKey).length),
      c.interceptors[i]? = some ((nonBlocking P)[i]) ∧
      c.interceptors[(nonBlocking P).length + j]? = some ((blocking P hosts xsrfKey)[j]) ∧
      i < (nonBlocking P).length + j := by
  obtain ⟨_, _, hc⟩ := ServeMuxConfig_some_inv P hosts xsrfKey c h
  rw [hc]
  refine ⟨by simp, ?_⟩
  intro i j hi hj
  refine ⟨?_, ?_, by omega⟩
  · rw [List.getElem?_append_left hi, List.getElem?_eq_getElem hi]
  · rw [List.getElem?_append_right (by omega)]
    simp [List.getElem?_eq_getElem hj]

/-- With two CSP and two framing interceptors: HSTS (position 1) and the XSRF interceptor
(position 7) of the config built for example.com. -/
theorem nonBlocking_before_blocking_witness :
    (defaults.ServeMuxConfig (recording 2 2) (Go.Slice.mk ["example.com"]) "k").1 =
      some ⟨[.staticheaders {}, .hsts, .coop "", .csp "" 0, .csp "" 1,
        .hostcheck (.mk ["example.com"]), .fetchmetadata, .xsrfhtml ⟨"k"⟩,
        .framing "" 0, .framing "" 1]⟩ ∧
    ([Built.staticheaders {}, .hsts, .coop "", .csp "" 0, .csp "" 1,
        .hostcheck (.mk ["example.com"]), .fetchmetadata, .xsrfhtml ⟨"k"⟩,
        .framing "" 0, .framing "" 1][1]? = some Built.hsts ∧
      [Built.staticheaders {}, .hsts, .coop "", .csp "" 0, .csp "" 1,
        .hostcheck (.mk ["example.com"]), .fetchmetadata, .xsrfhtml ⟨"k"⟩,
        .framing "" 0, .framing "" 1][5 + 2]? = some (Built.xsrfhtml ⟨"k"⟩) ∧
      1 < 5 + 2) :=
  ⟨by decide,
    (nonBlocking_before_blocking (recording 2 2) (Go.Slice.mk ["example.com"]) "k" _
      (by decide)).2 1 2 (by decide) (by decide)⟩

/-- C7: for every non-empty hosts slice and non-empty xsrfKey the call succeeds and the
interceptor sequence of the returned config is exactly: the static headers interceptor,
hsts.Default(), coop.Default(""), the elements of csp.Default("") in their order,
hostcheck.New(hosts...), fetchmetadata.ResourceIsolationPolicy(), the xsrfhtml
interceptor, the elements of framing.Interceptors("") in their order; its length is
6 + len(csp.Default("")) + len(framing.Interceptors("")). When the six single built-ins
are pairwise distinct values, each one that is not also returned by csp.Default("") or
framing.Interceptors("") occurs exactly once in the sequence. -/
theorem ServeMuxConfig_interceptors {I : Type} [DecidableEq I] (P : Plugins I)
    (hosts : Go.Slice String) (xsrfKey : String) (hh : Go.len hosts ≠ 0) (hk : xsrfKey ≠ "") :
    ∃ c : safehttp.ServeMuxConfig I,
      defaults.ServeMuxConfig P hosts xsrfKey = (some c, none) ∧
      c.interceptors =
        [P.staticheadersInterceptor {}, P.hstsDefault, P.coopDefault ""] ++ P.cspDefault "" ++
          [P.hostcheckNew hosts, P.fetchmetadataResourceIsolationPolicy,
            P.xsrfhtmlInterceptor { SecretAppKey := xsrfKey }] ++
          P.framingInterceptors "" ∧
      c.interceptors.length =
        6 + (P.cspDefault "").length + (P.framingInterceptors "").length ∧
      ((builtins P hosts xsrfKey).Nodup →
        ∀ x ∈ builtins P hosts xsrfKey,
          x ∉ P.cspDefault "" → x ∉ P.framingInterceptors "" →
          c.interceptors.count x = 1) := by
  refine ⟨_, ServeMuxConfig_of_valid P hosts xsrfKey hh hk, ?_, ?_, ?_⟩
  · simp [nonBlocking, blocking]
  · simp [nonBlocking, blocking]
    omega
  · intro hnd x hx h1 h2
    have e : (nonBlocking P ++ blocking P hosts xsrfKey).count x =
        (builtins P hosts xsrfKey).count x + (P.cspDefault "").count x +
          (P.framingInterceptors "").count x := by
      have e6 : builtins P hosts xsrfKey =
          [P.staticheadersInterceptor {}, P.hstsDefault, P.coopDefault ""] ++
            [P.hostcheckNew hosts, P.fetchmetadataResourceIsolationPolicy,
              P.xsrfhtmlInterceptor { SecretAppKey := xsrfKey }] := rfl
      simp only [nonBlocking, blocking, e6, List.count_append]
      omega
    show (nonBlocking P ++ blocking P hosts xsrfKey).count x = 1
    rw [e, List.count_eq_zero_of_not_mem h1, List.count_eq_zero_of_not_mem h2,
      List.count_eq_one_of_mem hnd hx]

/-- Two hosts, two CSP interceptors and one framing interceptor: nine interceptors. -/
theorem ServeMuxConfig_interceptors_witness :
    Go.len (Go.Slice.mk ["example.com", "www.example.com"]) ≠ 0 ∧ "secret" ≠ "" ∧
    ∃ c : safehttp.ServeMuxConfig Built,
      defaults.ServeMuxConfig (recording 2 1)
        (Go.Slice.mk ["example.com", "www.example.com"]) "secret" = (some c, none) ∧
      c.interceptors =
        [(recording 2 1).staticheadersInterceptor {}, (recording 2 1).hstsDefault,
            (recording 2 1).coopDefault ""] ++ (recording 2 1).cspDefault "" ++
          [(recording 2 1).hostcheckNew (Go.Slice.mk ["example.com", "www.example.com"]),
            (recording 2 1).fetchmetadataResourceIsolationPolicy,
            (recording 2 1).xsrfhtmlInterceptor { SecretAppKey := "secret" }] ++
          (recording 2 1).framingInterceptors "" ∧
      c.interceptors.length =
        6 + ((recording 2 1).cspDefault "").length +
          ((recording 2 1).framingInterceptors "").length ∧
      ((builtins (recording 2 1)
          (Go.Slice.mk ["example.com", "www.example.com"]) "secret").Nodup →
        ∀ x ∈ builtins (recording 2 1)
            (Go.Slice.mk ["example.com", "www.example.com"]) "secret",
          x ∉ (recording 2 1).cspDefault "" → x ∉ (recording 2 1).framingInterceptors "" →
          c.interceptors.count x = 1) :=
  ⟨by decide, by decide,
    ServeMuxConfig_interceptors (recording 2 1)
      (Go.Slice.mk ["example.com", "www.example.com"]) "secret" (by decide) (by decide)⟩

/-- C8: on success the host-check interceptor, at position 3 + len(csp.Default("")), is
hostcheck.New applied to the very slice the caller gave, and the XSRF interceptor, two
positions later, is the xsrfhtml interceptor whose SecretAppKey is the given xsrfKey.
No other interceptor depends on hosts or xsrfKey: the config built from any other valid
hosts and key has the same interceptor at every other position. -/
theorem ServeMuxConfig_inputs_reach_policies {I : Type} (P : Plugins I)
    (hosts : Go.Slice String) (xsrfKey : String) (c : safehttp.ServeMuxConfig I)
    (h : (defaults.ServeMuxConfig P hosts xsrfKey).1 = some c) :
    c.interceptors[3 + (P.cspDefault "").length]? = some (P.hostcheckNew hosts) ∧
    (∃ x : xsrfhtml.Interceptor, x.SecretAppKey = xsrfKey ∧
      c.interceptors[5 + (P.cspDefault "").length]? = some (P.xsrfhtmlInterceptor x)) ∧
    ∀ (hosts2 : Go.Slice String) (xsrfKey2 : String) (c2 : safehttp.ServeMuxConfig I),
      (defaults.ServeMuxConfig P hosts2 xsrfKey2).1 = some c2 →
      c.interceptors.length = c2.interceptors.length ∧
      ∀ k : Nat, k ≠ 3 + (P.cspDefault "").length → k ≠ 5 + (P.cspDefault "").length →
        c.interceptors[k]? = c2.interceptors[k]? := by
  obtain ⟨_, _, hc⟩ := ServeMuxConfig_some_inv P hosts xsrfKey c h
  have hn := nonBlocking_length P
  refine ⟨?_, ⟨⟨xsrfKey⟩, rfl, ?_⟩, ?_⟩
  · rw [hc, List.getElem?_append_right (by omega)]
    simp [hn, blocking]
  · rw [hc, List.getElem?_append_right (by omega)]
    have e : 5 + (P.cspDefault "").length - (nonBlocking P).length = 2 := by omega
    rw [e]
    simp [blocking]
  · intro hosts2 xsrfKey2 c2 h2
    obtain ⟨_, _, hc2⟩ := ServeMuxConfig_some_inv P hosts2 xsrfKey2 c2 h2
    rw [hc, hc2]
    refine ⟨by simp [blocking], ?_⟩
    intro k k1 k2
    exact getElem?_frame (nonBlocking P) (P.framingInterceptors "") _ _ _ _ _ k
      (by omega) (by omega)

/-- With two CSP interceptors the host check is at position 5 and the XSRF interceptor
at position 7; against the config for other hosts and another key, position 0 agrees. -/
theorem ServeMuxConfig_inputs_reach_policies_witness :
    (defaults.ServeMuxConfig (recording 2 2) (Go.Slice.mk ["a.example", "b.example"]) "k1").1 =
      some ⟨[.staticheaders {}, .hsts, .coop "", .csp "" 0, .csp "" 1,
        .hostcheck (.mk ["a.example", "b.example"]), .fetchmetadata, .xsrfhtml ⟨"k1"⟩,
        .framing "" 0, .framing "" 1]⟩ ∧
    [Built.staticheaders {}, .hsts, .coop "", .csp "" 0, .csp "" 1,
        .hostcheck (.mk ["a.example", "b.example"]), .fetchmetadata, .xsrfhtml ⟨"k1"⟩,
        .framing "" 0, .framing "" 1][3 + ((recording 2 2).cspDefault "").length]? =
      some (Built.hostcheck (.mk ["a.example", "b.example"])) :=
  ⟨by decide,
    (ServeMuxConfig_inputs_reach_policies (recording 2 2)
      (Go.Slice.mk ["a.example", "b.example"]) "k1" _ (by decide)).1⟩

/-- C9: for every input on which `ServeMuxConfig` succeeds, whatever hosts and xsrfKey
are, the COOP interceptor (position 2) is coop.Default applied to the empty report
group, the CSP interceptors (from position 3) are those of csp.Default applied to the
empty report-uri, and the framing interceptors (the rest after the three blocking
built-ins) are those of framing.Interceptors applied to the empty report-uri. -/
theorem ServeMuxConfig_reporting_unset {I : Type} (P : Plugins I) (hosts : Go.Slice String)
    (xsrfKey : String) (c : safehttp.ServeMuxConfig I)
    (h : (defaults.ServeMuxConfig P hosts xsrfKey).1 = some c) :
    c.interceptors[2]? = some (P.coopDefault "") ∧
    (c.interceptors.drop 3).take (P.cspDefault "").length = P.cspDefault "" ∧
    c.interceptors.drop (6 + (P.cspDefault "").length) = P.framingInterceptors "" := by
  obtain ⟨_, _, hc⟩ := ServeMuxConfig_some_inv P hosts xsrfKey c h
  rw [hc]
  refine ⟨by simp [nonBlocking], by simp [nonBlocking], ?_⟩
  have e : 6 + (P.cspDefault "").length = (nonBlocking P).length + 3 := by
    rw [nonBlocking_length]; omega
  rw [e, ← List.drop_drop, List.drop_left]
  simp [blocking]

/-- With two CSP and two framing interceptors, each records the empty report-uri and the
COOP interceptor records the empty report group. -/
theorem ServeMuxConfig_reporting_unset_witness :
    (defaults.ServeMuxConfig (recording 2 2) (Go.Slice.mk ["example.com"]) "k").1 =
      some ⟨[.staticheaders {}, .hsts, .coop "", .csp "" 0, .csp "" 1,
        .hostcheck (.mk ["example.com"]), .fetchmetadata, .xsrfhtml ⟨"k"⟩,
        .framing "" 0, .framing "" 1]⟩ ∧
    [Built.staticheaders {}, .hsts, .coop "", .csp "" 0, .csp "" 1,
        .hostcheck (.mk ["example.com"]), .fetchmetadata, .xsrfhtml ⟨"k"⟩,
        .framing "" 0, .framing "" 1][2]? = some (Built.coop "") :=
  ⟨by decide,
    (ServeMuxConfig_reporting_unset (recording 2 2) (Go.Slice.mk ["example.com"]) "k" _
      (by decide)).1⟩

/-! ## Running the installed chain -/

theorem runBefore_congr {I Ctx Resp : Type} (B B2 : safehttp.Behaviour I Ctx Resp)
    (xs : List I) (ctx : Ctx)
    (h : ∀ i ∈ xs, ∀ x : Ctx, B2.before i x = B.before i x) :
    safehttp.runBefore B2 xs ctx = safehttp.runBefore B xs ctx := by
  induction xs generalizing ctx with
  | nil => rfl
  | cons x xs ih =>
    simp only [safehttp.runBefore]
    rw [h x (List.mem_cons_self x xs)]
    cases B.before x ctx with
    | halt r => rfl
    | «continue» ctx2 =>
      simp only
      rw [ih ctx2 (fun i hi => h i (List.mem_cons_of_mem x hi))]

theorem run_of_halt {I Ctx Resp : Type} (B : safehttp.Behaviour I Ctx Resp)
    (pre rest : List I) (i : I) (ctx0 ctx1 : Ctx) (steps : List (safehttp.Step I)) (r : Resp)
    (hpre : safehttp.runBefore B pre ctx0 = (steps, .continue ctx1))
    (hhalt : B.before i ctx1 = .halt r) :
    safehttp.run B ⟨pre ++ i :: rest⟩ ctx0 =
      (pre.map safehttp.Step.before ++ [safehttp.Step.before i], r) := by
  have hs := runBefore_continue_steps B pre ctx0 ctx1 steps hpre
  have ha := runBefore_append B pre (i :: rest) ctx0 ctx1 steps hpre
  simp only [safehttp.runBefore, hhalt] at ha
  simp only [safehttp.run, ha, hs]

/-- C5: with the chain executor of the spec (before phases in registration order, stop
at the first halt), for every config built by `ServeMuxConfig` and every request context
on which the static-headers, HSTS, COOP and CSP interceptors all continue and the host
check then halts: the steps run are exactly the before phases of those non-blocking
interceptors, in order, followed by the host check; the response is the host check's
rejection; no step is run for the fetch-metadata, XSRF or framing interceptors or the
downstream handler; and the outcome is the same whatever those later interceptors and
the handler would have done. -/
theorem hostcheck_halt_stops_chain {I Ctx Resp : Type} (P : Plugins I)
    (hosts : Go.Slice String) (xsrfKey : String) (c : safehttp.ServeMuxConfig I)
    (B : safehttp.Behaviour I Ctx Resp) (ctx0 ctx1 : Ctx) (steps : List (safehttp.Step I))
    (r : Resp)
    (h : (defaults.ServeMuxConfig P hosts xsrfKey).1 = some c)
    (hcont : safehttp.runBefore B (nonBlocking P) ctx0 = (steps, .continue ctx1))
    (hhalt : B.before (P.hostcheckNew hosts) ctx1 = .halt r) :
    safehttp.run B c ctx0 =
      ((nonBlocking P).map safehttp.Step.before ++
        [safehttp.Step.before (P.hostcheckNew hosts)], r) ∧
    (safehttp.run B c ctx0).1.length = (nonBlocking P).length + 1 ∧
    safehttp.Step.handler ∉ (safehttp.run B c ctx0).1 ∧
    ∀ B2 : safehttp.Behaviour I Ctx Resp,
      (∀ i ∈ nonBlocking P ++ [P.hostcheckNew hosts], ∀ x : Ctx,
        B2.before i x = B.before i x) →
      safehttp.run B2 c ctx0 = safehttp.run B c ctx0 := by
  obtain ⟨_, _, hc⟩ := ServeMuxConfig_some_inv P hosts xsrfKey c h
  obtain ⟨rest, hcfg⟩ : ∃ rest : List I,
      c = ⟨nonBlocking P ++ P.hostcheckNew hosts :: rest⟩ := by
    refine ⟨[P.fetchmetadataResourceIsolationPolicy,
      P.xsrfhtmlInterceptor { SecretAppKey := xsrfKey }] ++ P.framingInterceptors "", ?_⟩
    cases c
    simp only [safehttp.ServeMuxConfig.mk.injEq]
    simpa [blocking] using hc
  have hrun := run_of_halt B (nonBlocking P) rest (P.hostcheckNew hosts) ctx0 ctx1 steps r
    hcont hhalt
  rw [← hcfg] at hrun
  refine ⟨hrun, by rw [hrun]; simp, by rw [hrun]; simp, ?_⟩
  intro B2 hB2
  have hcont2 : safehttp.runBefore B2 (nonBlocking P) ctx0 = (steps, .continue ctx1) := by
    rw [runBefore_congr B B2 (nonBlocking P) ctx0
      (fun i hi => hB2 i (List.mem_append_left _ hi))]
    exact hcont
  have hhalt2 : B2.before (P.hostcheckNew hosts) ctx1 = .halt r := by
    rw [hB2 _ (List.mem_append_right _ (List.mem_singleton_self _))]
    exact hhalt
  have hrun2 := run_of_halt B2 (nonBlocking P) rest (P.hostcheckNew hosts) ctx0 ctx1 steps r
    hcont2 hhalt2
  rw [← hcfg] at hrun2
  rw [hrun, hrun2]

/-- The scenario of the spec: hosts example.com, key "k", a request for evil.com without
token. The five header interceptors run, the host check rejects with their headers set,
and nothing else runs. -/
theorem hostcheck_halt_stops_chain_witness :
    (defaults.ServeMuxConfig (recording 2 2) (Go.Slice.mk ["example.com"]) "k").1 =
      some ⟨[.staticheaders {}, .hsts, .coop "", .csp "" 0, .csp "" 1,
        .hostcheck (.mk ["example.com"]), .fetchmetadata, .xsrfhtml ⟨"k"⟩,
        .framing "" 0, .framing "" 1]⟩ ∧
    safehttp.runBefore sampleBehaviour (nonBlocking (recording 2 2)) ⟨"evil.com", false, []⟩ =
      ([.before (.staticheaders {}), .before .hsts, .before (.coop ""),
          .before (.csp "" 0), .before (.csp "" 1)],
        .continue ⟨"evil.com", false, ["X-Content-Type-Options", "Strict-Transport-Security",
          "Cross-Origin-Opener-Policy", "Content-Security-Policy",
          "Content-Security-Policy"]⟩) ∧
    safehttp.run sampleBehaviour
        ⟨[.staticheaders {}, .hsts, .coop "", .csp "" 0, .csp "" 1,
          .hostcheck (.mk ["example.com"]), .fetchmetadata, .xsrfhtml ⟨"k"⟩,
          .framing "" 0, .framing "" 1]⟩ ⟨"evil.com", false, []⟩ =
      ((nonBlocking (recording 2 2)).map safehttp.Step.before ++
        [safehttp.Step.before ((recording 2 2).hostcheckNew (Go.Slice.mk ["example.com"]))],
        ⟨403, ["X-Content-Type-Options", "Strict-Transport-Security",
          "Cross-Origin-Opener-Policy", "Content-Security-Policy",
          "Content-Security-Policy"]⟩) :=
  ⟨by decide, by decide,
    (hostcheck_halt_stops_chain (recording 2 2) (Go.Slice.mk ["example.com"]) "k" _
      sampleBehaviour ⟨"evil.com", false, []⟩
      ⟨"evil.com", false, ["X-Content-Type-Options", "Strict-Transport-Security",
        "Cross-Origin-Opener-Policy", "Content-Security-Policy", "Content-Security-Policy"]⟩
      [.before (.staticheaders {}), .before .hsts, .before (.coop ""),
        .before (.csp "" 0), .before (.csp "" 1)]
      ⟨403, ["X-Content-Type-Options", "Strict-Transport-Security",
        "Cross-Origin-Opener-Policy", "Content-Security-Policy", "Content-Security-Policy"]⟩
      (by decide) (by decide) (by decide)).1⟩
